import Mathlib

/-!
Verification development for the distribution-sampling backend
(`src/server.js`).  The numeric carrier is `ℝ` (JavaScript doubles are
idealized as exact real arithmetic; rounding is not modelled).  The IEEE
special values that matter to the spec's claims — `NaN` and the signed
infinities produced by division by zero and by `Math.sqrt` of a negative
number — are modelled explicitly by the `JSNum` type.  Code that can raise
a runtime exception (the mathjs combinatorial routines) is modelled with
`Except`, exceptions in a request handler surfacing as a server error.
-/

/-- Result of a JavaScript floating-point operation that can produce one of
the IEEE special values: `NaN`, `+Infinity`, `-Infinity`, or a finite
number (idealized as a real). -/
inductive JSNum where
  | nan : JSNum
  | posInf : JSNum
  | negInf : JSNum
  | fin : ℝ → JSNum


/-- JavaScript division of two finite numbers: `0/0` is `NaN`, a nonzero
numerator over `0` is a signed infinity, otherwise ordinary division.
(The IEEE distinction between `+0` and `-0` is not modelled.) -/
noncomputable def jsDiv (a b : ℝ) : JSNum :=
  if b = 0 then
    if a = 0 then JSNum.nan
    else if 0 < a then JSNum.posInf
    else JSNum.negInf
  else JSNum.fin (a / b)

/-- JavaScript `Math.sqrt`: `NaN` on negative input, otherwise the real
square root. -/
noncomputable def jsSqrt (x : ℝ) : JSNum :=
  if x < 0 then JSNum.nan else JSNum.fin (Real.sqrt x)

/-- JavaScript `Number.isInteger` as a predicate on the idealized reals. -/
def isInt (x : ℝ) : Prop := (⌊x⌋ : ℝ) = x

noncomputable instance : DecidablePred isInt := fun x =>
  inferInstanceAs (Decidable ((⌊x⌋ : ℝ) = x))

/-- Models the mathjs `factorial` function (an external dependency of
`src/server.js`): it raises for negative arguments and otherwise returns
`gamma(x + 1)` (which is `x!` on the naturals). -/
noncomputable def jsFactorial (x : ℝ) : Except String ℝ :=
  if x < 0 then Except.error "Value must be non-negative"
  else Except.ok (Real.Gamma (x + 1))

/-- Models the mathjs `combinations` function (an external dependency of
`src/server.js`): it raises unless both arguments are non-negative
integers with `k ≤ n`, and otherwise returns the binomial coefficient
`C(n, k)`. -/
noncomputable def jsCombinations (n k : ℝ) : Except String ℝ :=
  if ¬(isInt n ∧ 0 ≤ n) then
    Except.error "Positive integer value expected in function combinations"
  else if ¬(isInt k ∧ 0 ≤ k) then
    Except.error "Positive integer value expected in function combinations"
  else if n < k then
    Except.error "k must be less than or equal to n"
  else Except.ok ((⌊n⌋.toNat.choose ⌊k⌋.toNat : ℕ) : ℝ)

/-- Fuel-bounded binary length of a natural number (a structural stand-in
for `Nat.log2 n + 1` that reduces in the kernel). -/
def bitsLoop : ℕ → ℕ → ℕ
  | 0, _ => 0
  | fuel + 1, n => if n = 0 then 0 else bitsLoop fuel (n / 2) + 1

/-- Number of binary digits of a natural number below `2^64`. -/
def bitLen (n : ℕ) : ℕ := bitsLoop 64 n

/-- IEEE binary64 rounding (round to nearest, ties to even) on the `2^-55`
grid: the argument encodes the dyadic value `k * 2^-55` and the result
encodes the nearest double.  Exact for every value reached by the two
sampling loops of the source: they stay on the `2^-55` grid with magnitude
below `2^58 * 2^-55 = 8` or are small exact integers, well inside the
normal binary64 range, and values of at most 53 bits are returned
unchanged (they are exactly representable). -/
def rnd55 (k : ℤ) : ℤ :=
  if k = 0 then 0
  else
    let a := k.natAbs
    let bits := bitLen a
    if bits ≤ 53 then k
    else
      let s := bits - 53
      let q := a / 2 ^ s
      let rem := a % 2 ^ s
      let half := 2 ^ (s - 1)
      let r :=
        if rem < half then q
        else if half < rem then q + 1
        else if q % 2 = 0 then q else q + 1
      (if k < 0 then -1 else 1) * ((r * 2 ^ s : ℕ) : ℤ)

/-- The mathjs `range` stepping loop (external dependency):
`while (x < end) { array.push(x); x += step }` over binary64 doubles
encoded on the `2^-55` grid, with fuel bounding the iteration count. -/
def rangeLoop55 (stopK stepK : ℤ) : ℕ → ℤ → List ℤ
  | 0, _ => []
  | fuel + 1, k =>
    if k < stopK then k :: rangeLoop55 stopK stepK fuel (rnd55 (k + stepK)) else []

/-- `math.range(0, 20, 1).toArray()` on the grid: start `0`, end
`20 * 2^55 = 720575940379279360`, step `1 * 2^55 = 36028797018963968`
(all three are exact doubles, and so is every accumulated value). -/
def discGrid : List ℤ := rangeLoop55 720575940379279360 36028797018963968 1000 0

/-- `math.range(-5, 5, 0.1).toArray()` on the grid: start `-5 * 2^55`, end
`5 * 2^55`, and step `3602879701896397`, which encodes the binary64 double
nearest the source literal `0.1` (see `step01_rounds_to_tenth`).  The
accumulated x drifts below the exact decimals, and after 100 additions is
still below the end bound, so the loop pushes a 101st element. -/
def contGrid : List ℤ :=
  rangeLoop55 180143985094819840 3602879701896397 1000 (-180143985094819840)

/-- Decode a grid-encoded sample list into the real values `k * 2^-55`. -/
noncomputable def gridToReal (l : List ℤ) : List ℝ :=
  l.map (fun k : ℤ => (k : ℝ) / 2 ^ 55)

/-- Decimal digit value of a character, `none` for a non-digit. -/
def digitVal (c : Char) : Option ℕ :=
  if c = '0' then some 0 else if c = '1' then some 1 else if c = '2' then some 2
  else if c = '3' then some 3 else if c = '4' then some 4 else if c = '5' then some 5
  else if c = '6' then some 6 else if c = '7' then some 7 else if c = '8' then some 8
  else if c = '9' then some 9 else none

/-- Parse a character list as a decimal number, `none` on a non-digit. -/
def parseDigits : List Char → ℕ → Option ℕ
  | [], acc => some acc
  | c :: cs, acc =>
    match digitVal c with
    | some d => parseDigits cs (acc * 10 + d)
    | none => none

/-- The ECMAScript array-index test for a property key: the canonical
decimal string of an integer below `2^32 - 1` (no leading zeros).
`Object.keys` enumerates such keys first, in ascending numeric order,
regardless of where they appear in the query string. -/
def keyIndex (s : String) : Option ℕ :=
  match s.data with
  | [] => none
  | c :: cs =>
    match parseDigits (c :: cs) 0 with
    | none => none
    | some n => if (c = '0' ∧ cs ≠ []) ∨ 4294967294 < n then none else some n

/-- Insert an entry into a list of array-index-keyed entries, keeping
ascending numeric key order. -/
def insertByIndex (kv : String × ℝ) : List (String × ℝ) → List (String × ℝ)
  | [] => [kv]
  | kv2 :: rest =>
    if (keyIndex kv.1).getD 0 < (keyIndex kv2.1).getD 0 then kv :: kv2 :: rest
    else kv2 :: insertByIndex kv rest

/-- Sort array-index-keyed entries by ascending numeric key. -/
def sortByIndex : List (String × ℝ) → List (String × ℝ)
  | [] => []
  | kv :: rest => insertByIndex kv (sortByIndex rest)

/-- `Object.keys` enumeration order of the parsed query object (ECMAScript
own-property order): array-index-like keys first in ascending numeric
order, then the remaining string keys in insertion order.  The query is
modelled as an insertion-ordered association list with distinct keys: the
qs parser used by Express collapses duplicate query keys into a single
array-valued entry before the handler runs, and such non-numeric values
are outside this real-valued model. -/
def jsObjectKeys (q : List (String × ℝ)) : List (String × ℝ) :=
  sortByIndex (q.filter (fun kv => (keyIndex kv.1).isSome)) ++
    q.filter (fun kv => (keyIndex kv.1).isNone)

/-- `List.map` over a function that can throw, propagating the first
exception — models a JavaScript `Array.prototype.map` whose callback can
raise. -/
def mapExcept {α β ε : Type} (f : α → Except ε β) : List α → Except ε (List β)
  | [] => Except.ok []
  | a :: as =>
    match f a with
    | Except.error e => Except.error e
    | Except.ok b =>
      match mapExcept f as with
      | Except.error e => Except.error e
      | Except.ok bs => Except.ok (b :: bs)

/-- A distribution descriptor, one entry of the `distributions` table in
`src/server.js`.  Positional JavaScript arguments with defaults are
modelled by a `List ℝ` of supplied parameters read positionally with
`List.getD`, which yields the declared default when the position is
missing and ignores extra positions.  `pdf` returns `Except` because the
binomial density calls the throwing mathjs `combinations`. -/
structure DistEntry where
  pdf : ℝ → List ℝ → Except String ℝ
  cdfExpression : String
  pdfExpression : String
  mean : List ℝ → ℝ
  variance : List ℝ → ℝ

/-- The `normal` descriptor from `src/server.js`. -/
noncomputable def normalDist : DistEntry :=
  ⟨fun x params =>
      let mu := params.getD 0 0
      let sigma := params.getD 1 1
      Except.ok ((1 / (sigma * Real.sqrt (2 * Real.pi))) *
        Real.exp (-0.5 * ((x - mu) / sigma) ^ 2)),
    "0.5 * (1 + erf((x - μ) / (σ * sqrt(2))))",
    "(1 / (σ√(2π))) * exp(-0.5 * ((x - μ) / σ)^2)",
    fun params => params.getD 0 0,
    fun params => (params.getD 0 1) ^ 2⟩

/-- The `uniform` descriptor from `src/server.js`. -/
noncomputable def uniformDist : DistEntry :=
  ⟨fun x params =>
      let a := params.getD 0 0
      let b := params.getD 1 1
      Except.ok (if a ≤ x ∧ x ≤ b then 1 / (b - a) else 0),
    "((x - a) / (b - a)) for a ≤ x ≤ b",
    "1 / (b - a) for a ≤ x ≤ b",
    fun params => (params.getD 0 0 + params.getD 1 1) / 2,
    fun params => (params.getD 1 1 - params.getD 0 0) ^ 2 / 12⟩

/-- The `exponential` descriptor from `src/server.js`. -/
noncomputable def exponentialDist : DistEntry :=
  ⟨fun x params =>
      let lambda := params.getD 0 1
      Except.ok (if 0 ≤ x then lambda * Real.exp (-lambda * x) else 0),
    "1 - exp(-λx) for x ≥ 0",
    "λ * exp(-λx) for x ≥ 0",
    fun params => 1 / params.getD 0 1,
    fun params => 1 / (params.getD 0 1) ^ 2⟩

/-- The `poisson` descriptor from `src/server.js`.  The density guards the
factorial with `Number.isInteger(x) && x >= 0` and returns `0` otherwise. -/
noncomputable def poissonDist : DistEntry :=
  ⟨fun x params =>
      let lambda := params.getD 0 3
      if isInt x ∧ 0 ≤ x then
        match jsFactorial x with
        | Except.error e => Except.error e
        | Except.ok f => Except.ok (Real.exp (-lambda) * lambda ^ x / f)
      else Except.ok 0,
    "Σ (e^(-λ) * λ^k / k!) from k=0 to x",
    "(e^(-λ) * λ^x) / x!",
    fun params => params.getD 0 3,
    fun params => params.getD 0 3⟩

/-- The `rayleigh` descriptor from `src/server.js`. -/
noncomputable def rayleighDist : DistEntry :=
  ⟨fun x params =>
      let sigma := params.getD 0 1
      Except.ok (if 0 ≤ x then
        (x / sigma ^ 2) * Real.exp (-(x ^ 2) / (2 * sigma ^ 2)) else 0),
    "1 - exp(-x^2 / (2 * σ^2)) for x ≥ 0",
    "(x / σ^2) * exp(-x^2 / (2 * σ^2)) for x ≥ 0",
    fun params => params.getD 0 1 * Real.sqrt (Real.pi / 2),
    fun params => (2 - Real.pi / 2) * (params.getD 0 1) ^ 2⟩

/-- The `laplacian` descriptor from `src/server.js`. -/
noncomputable def laplacianDist : DistEntry :=
  ⟨fun x params =>
      let mu := params.getD 0 0
      let b := params.getD 1 1
      Except.ok ((1 / (2 * b)) * Real.exp (-|x - mu| / b)),
    "0.5 * (1 + sign(x - μ) * (1 - exp(-|x - μ| / b)))",
    "(1 / (2 * b)) * exp(-|x - μ| / b)",
    fun params => params.getD 0 0,
    fun params => 2 * (params.getD 0 1) ^ 2⟩

/-- The `binomial` descriptor from `src/server.js`.  The density calls
mathjs `combinations(n, x)` with no guard, so it can raise. -/
noncomputable def binomialDist : DistEntry :=
  ⟨fun x params =>
      let n := params.getD 0 10
      let p := params.getD 1 0.5
      match jsCombinations n x with
      | Except.error e => Except.error e
      | Except.ok c => Except.ok (c * p ^ x * (1 - p) ^ (n - x)),
    "Σ (nCx * p^x * (1-p)^(n-x)) from x=0 to x",
    "nCx * p^x * (1-p)^(n-x)",
    fun params => params.getD 0 10 * params.getD 1 0.5,
    fun params => params.getD 0 10 * params.getD 1 0.5 * (1 - params.getD 1 0.5)⟩

/-- The `distributions` lookup table from `src/server.js`: name to
descriptor, `none` for an unregistered name. -/
noncomputable def distributions (t : String) : Option DistEntry :=
  if t = "normal" then some normalDist
  else if t = "uniform" then some uniformDist
  else if t = "exponential" then some exponentialDist
  else if t = "poisson" then some poissonDist
  else if t = "rayleigh" then some rayleighDist
  else if t = "laplacian" then some laplacianDist
  else if t = "binomial" then some binomialDist
  else none

/-- The member names a plain JavaScript object literal inherits from
`Object.prototype`: reading `distributions[t]` for these `t` yields a
truthy function or object even though `t` is not a registered kind. -/
def objectProtoProps : List String :=
  ["constructor", "hasOwnProperty", "isPrototypeOf", "propertyIsEnumerable",
   "toLocaleString", "toString", "valueOf", "__defineGetter__",
   "__defineSetter__", "__lookupGetter__", "__lookupSetter__", "__proto__"]

/-- Result of the JavaScript property read `distributions[type]`: an own
property (a registered descriptor), a truthy member inherited from
`Object.prototype`, or `undefined`. -/
inductive JSProp where
  | descriptor : DistEntry → JSProp
  | protoMember : JSProp
  | undefined : JSProp

/-- The property read `distributions[type]`, prototype chain included. -/
noncomputable def distributionsGetProp (t : String) : JSProp :=
  match distributions t with
  | some d => JSProp.descriptor d
  | none =>
    if t ∈ objectProtoProps then JSProp.protoMember else JSProp.undefined

/-- The accumulator loop inside `computeCDF`: running cumulative sums of
the input, starting from `acc`. -/
def computeCDFLoop : List ℝ → ℝ → List ℝ
  | [], _ => []
  | p :: ps, acc => (acc + p) :: computeCDFLoop ps (acc + p)

/-- `computeCDF` from `src/server.js`: build the running cumulative sums of
the sampled densities, then divide every cumulative value by the final
(total) cumulative sum, with JavaScript division semantics. -/
noncomputable def computeCDF (pdfValues : List ℝ) : List JSNum :=
  let cdfValues := computeCDFLoop pdfValues 0
  let total := cdfValues.getLastD 0
  cdfValues.map (fun val => jsDiv val total)

/-- Statement-side description of the CDF derivation, written from the
spec's words: the running cumulative sum over `pdfValues` in sample order,
each cumulative value divided by the total mass `pdfValues.sum` (no
multiplication by the sampling step width).  Compared with `computeCDF`,
which is translated from the source, in the claim about the algorithm. -/
noncomputable def specCDF (pdfValues : List ℝ) : List JSNum :=
  (List.range pdfValues.length).map
    (fun i => jsDiv ((pdfValues.take (i + 1)).sum) pdfValues.sum)

/-- The summary-statistics record returned by `computeStatistics`. -/
structure Stats where
  mean : ℝ
  variance : ℝ
  stdDev : JSNum

/-- `computeStatistics` from `src/server.js`.  The source looks the
descriptor up by name again; the handler guarantees that lookup succeeds,
so the embedding takes the descriptor directly.  `stdDev` is
`Math.sqrt(variance)`, which is `NaN` for a negative variance. -/
noncomputable def computeStatistics (dist : DistEntry) (params : List ℝ) : Stats :=
  ⟨dist.mean params, dist.variance params, jsSqrt (dist.variance params)⟩

/-- The JSON payload of a successful `/distribution/:type` response. -/
structure DistResponse where
  xValues : List ℝ
  pdfValues : List ℝ
  cdfValues : List JSNum
  stats : Stats
  pdfExpression : String
  cdfExpression : String

/-- Outcome of one request to `/distribution/:type`: an HTTP client error
with a status code and JSON error message, an uncaught exception surfaced
by Express as a server error, or a 200 payload. -/
inductive HandlerResult where
  | badRequest : Nat → String → HandlerResult
  | serverError : String → HandlerResult
  | ok : DistResponse → HandlerResult

/-- The x-axis sampling range chosen by the handler, as binary64 doubles:
`math.range(0, 20, 1)` — exactly the integers `0..19` — for `poisson` and
`binomial`, and `math.range(-5, 5, 0.1)` — 101 accumulated points — for
every other type.  It depends only on the type string, never on the
parameters. -/
noncomputable def sampleXValues (t : String) : List ℝ :=
  if t = "poisson" ∨ t = "binomial" then gridToReal discGrid
  else gridToReal contGrid

/-- The `GET /distribution/:type` handler from `src/server.js`.  The query
string is modelled as an insertion-ordered association list with distinct
keys whose values have already been parsed by `parseFloat`; the source
reads `Object.keys(req.query).map(key => parseFloat(req.query[key]))`, so
the positional parameters are the values in `Object.keys` enumeration
order (`jsObjectKeys`).  The guard `if (!distributions[type])` rejects
with HTTP 400 only when the property read is `undefined`: a name inherited
from `Object.prototype` passes the guard and the density map then throws
`TypeError: distributions[type].pdf is not a function`, surfacing as a
server error, exactly like an exception thrown by a registered density. -/
noncomputable def distributionGet (t : String) (query : List (String × ℝ)) :
    HandlerResult :=
  match distributionsGetProp t with
  | JSProp.undefined => HandlerResult.badRequest 400 "Invalid distribution type"
  | JSProp.protoMember =>
    HandlerResult.serverError "distributions[type].pdf is not a function"
  | JSProp.descriptor dist =>
    let params := (jsObjectKeys query).map (fun kv => kv.2)
    let xValues := sampleXValues t
    match mapExcept (fun x => dist.pdf x params) xValues with
    | Except.error e => HandlerResult.serverError e
    | Except.ok pdfValues =>
      HandlerResult.ok ⟨xValues, pdfValues, computeCDF pdfValues,
        computeStatistics dist params, dist.pdfExpression, dist.cdfExpression⟩

/-- The accumulator loop produces the running cumulative sums shifted by
the starting accumulator. -/
theorem computeCDFLoop_eq (l : List ℝ) :
    ∀ a : ℝ, computeCDFLoop l a =
      (List.range l.length).map (fun i => a + (l.take (i + 1)).sum) := by
  induction l with
  | nil => intro a; simp [computeCDFLoop]
  | cons p ps ih =>
    intro a
    simp only [computeCDFLoop, List.length_cons, List.range_succ_eq_map,
      List.map_cons, List.map_map, ih (a + p)]
    congr 1
    · simp
    · apply List.map_congr_left
      intro i _
      simp [List.take_cons, List.sum_cons]
      ring

/-- The last running cumulative sum is the starting accumulator plus the
total sum. -/
theorem computeCDFLoop_getLastD (l : List ℝ) :
    ∀ a : ℝ, (computeCDFLoop l a).getLastD a = a + l.sum := by
  induction l with
  | nil => intro a; simp [computeCDFLoop]
  | cons p ps ih =>
    intro a
    simp only [computeCDFLoop, List.getLastD_cons, ih (a + p), List.sum_cons]
    ring

/-- `computeCDF` coincides with the statement-side description: cumulative
sums, each divided (in JavaScript semantics) by the total mass. -/
theorem computeCDF_spec (l : List ℝ) : computeCDF l = specCDF l := by
  have ht : (computeCDFLoop l 0).getLastD 0 = l.sum := by
    rw [computeCDFLoop_getLastD l 0]; ring
  show (computeCDFLoop l 0).map
      (fun val => jsDiv val ((computeCDFLoop l 0).getLastD 0)) = specCDF l
  rw [ht, computeCDFLoop_eq l 0, List.map_map]
  unfold specCDF
  simp

/-- Element-by-element description of `computeCDF`. -/
theorem computeCDF_getElem (l : List ℝ) (i : ℕ) (hi : i < l.length) :
    (computeCDF l)[i]? = some (jsDiv ((l.take (i + 1)).sum) l.sum) := by
  rw [computeCDF_spec]
  unfold specCDF
  rw [List.getElem?_map, List.getElem?_range hi]
  rfl

/-- `computeCDF` preserves the length of its input. -/
theorem computeCDF_length (l : List ℝ) : (computeCDF l).length = l.length := by
  rw [computeCDF_spec]; unfold specCDF; simp

/-- If the callback succeeds pointwise then `mapExcept` returns the map. -/
theorem mapExcept_ok_of_forall {α β ε : Type} (f : α → Except ε β) (g : α → β) :
    ∀ l : List α, (∀ a ∈ l, f a = Except.ok (g a)) →
      mapExcept f l = Except.ok (l.map g) := by
  intro l
  induction l with
  | nil => intro _; rfl
  | cons a as ih =>
    intro h
    have ha := h a (by simp)
    have has := ih (fun b hb => h b (by simp [hb]))
    simp [mapExcept, ha, has]

/-- If the callback never throws on the list, `mapExcept` succeeds. -/
theorem mapExcept_exists_ok {α β ε : Type} (f : α → Except ε β) :
    ∀ l : List α, (∀ a ∈ l, ∃ v, f a = Except.ok v) →
      ∃ l', mapExcept f l = Except.ok l' := by
  intro l
  induction l with
  | nil => intro _; exact ⟨[], rfl⟩
  | cons a as ih =>
    intro h
    obtain ⟨v, hv⟩ := h a (by simp)
    obtain ⟨l', hl'⟩ := ih (fun b hb => h b (by simp [hb]))
    exact ⟨v :: l', by simp [mapExcept, hv, hl']⟩

/-- A successful `mapExcept` preserves length. -/
theorem mapExcept_length {α β ε : Type} (f : α → Except ε β) :
    ∀ (l : List α) (l' : List β), mapExcept f l = Except.ok l' →
      l'.length = l.length := by
  intro l
  induction l with
  | nil =>
    intro l' h
    simp only [mapExcept] at h
    cases h; rfl
  | cons a as ih =>
    intro l' h
    simp only [mapExcept] at h
    cases hfa : f a with
    | error e => rw [hfa] at h; cases h
    | ok b =>
      rw [hfa] at h
      cases hrest : mapExcept f as with
      | error e => rw [hrest] at h; cases h
      | ok bs =>
        rw [hrest] at h
        cases h
        simp [ih bs hrest]

/-- `mapExcept` propagates the first exception: if the callback succeeds on
a whole initial segment and throws at the next element, the overall map
throws that exception. -/
theorem mapExcept_append_error {α β ε : Type} (f : α → Except ε β) (e : ε)
    (a : α) (l₂ : List α) :
    ∀ l₁ : List α, (∀ b ∈ l₁, ∃ v, f b = Except.ok v) →
      f a = Except.error e →
      mapExcept f (l₁ ++ a :: l₂) = Except.error e := by
  intro l₁
  induction l₁ with
  | nil => intro _ ha; simp [mapExcept, ha]
  | cons b bs ih =>
    intro h ha
    obtain ⟨v, hv⟩ := h b (by simp)
    have hrest := ih (fun c hc => h c (by simp [hc])) ha
    simp [mapExcept, hv, hrest]

/-- The grid step used by `contGrid` encodes the binary64 double nearest
the source literal `0.1`: on the `2^-55` grid, `0.1 * 2^55` lies within
half a grid unit of `3602879701896397`. -/
theorem step01_rounds_to_tenth :
    |(1 / 10 : ℚ) * 2 ^ 55 - 3602879701896397| < 1 / 2 := by
  rw [show (1 / 10 : ℚ) * 2 ^ 55 - 3602879701896397 = -(1 / 5) from by norm_num,
    abs_neg, abs_of_pos (by norm_num : (0 : ℚ) < 1 / 5)]
  norm_num

/-- The discrete sampling loop lands exactly on the integers `0..19`
(times the grid scale): every value is an exact double, so the rounding
in the accumulation is the identity. -/
theorem discGrid_eq :
    discGrid = (List.range 20).map (fun k : ℕ => (k : ℤ) * 36028797018963968) := by
  decide

set_option maxRecDepth 10000 in
/-- The continuous sampling loop pushes 101 elements: the accumulated x
after 100 additions is still below the end bound `5 * 2^55`. -/
theorem contGrid_length : contGrid.length = 101 := by decide

set_option maxRecDepth 10000 in
/-- The continuous sampling loop starts at `-5` (grid-encoded). -/
theorem contGrid_head : contGrid[0]? = some (-180143985094819840) := by decide

set_option maxRecDepth 10000 in
/-- The 101st and last sample is `180143985094819744 * 2^-55`, i.e.
`4.99999999999999733…`, just below the end bound. -/
theorem contGrid_last : contGrid.getLast? = some 180143985094819744 := by decide

/-- Registry lookup of `"normal"`. -/
theorem distributions_normal : distributions "normal" = some normalDist := by
  simp [distributions]

/-- Registry lookup of `"uniform"`. -/
theorem distributions_uniform : distributions "uniform" = some uniformDist := by
  simp [distributions]

/-- Registry lookup of `"exponential"`. -/
theorem distributions_exponential :
    distributions "exponential" = some exponentialDist := by
  simp [distributions]

/-- Registry lookup of `"poisson"`. -/
theorem distributions_poisson : distributions "poisson" = some poissonDist := by
  simp [distributions]

/-- Registry lookup of `"rayleigh"`. -/
theorem distributions_rayleigh : distributions "rayleigh" = some rayleighDist := by
  simp [distributions]

/-- Registry lookup of `"laplacian"`. -/
theorem distributions_laplacian :
    distributions "laplacian" = some laplacianDist := by
  simp [distributions]

/-- Registry lookup of `"binomial"`. -/
theorem distributions_binomial : distributions "binomial" = some binomialDist := by
  simp [distributions]

/-- The poisson density never throws: the `Number.isInteger(x) && x >= 0`
guard keeps the factorial away from negative inputs. -/
theorem poissonPdf_total (x : ℝ) (ps : List ℝ) :
    ∃ v, poissonDist.pdf x ps = Except.ok v := by
  by_cases h : isInt x ∧ 0 ≤ x
  · refine ⟨Real.exp (-(ps.getD 0 3)) * (ps.getD 0 3) ^ x /
      Real.Gamma (x + 1), ?_⟩
    simp [poissonDist, h, jsFactorial, not_lt.mpr h.2]
  · exact ⟨0, by simp [poissonDist, h]⟩

/-- Outside the guard the poisson density is the constant `0`. -/
theorem poissonPdf_guard (x : ℝ) (ps : List ℝ) (h : ¬(isInt x ∧ 0 ≤ x)) :
    poissonDist.pdf x ps = Except.ok 0 := by
  simp [poissonDist, h]

/-- mathjs `combinations` on non-negative integer arguments with `k ≤ n`
returns the binomial coefficient. -/
theorem jsCombinations_nat (m k : ℕ) (hk : k ≤ m) :
    jsCombinations (m : ℝ) (k : ℝ) = Except.ok ((m.choose k : ℕ) : ℝ) := by
  have hm : isInt (m : ℝ) ∧ 0 ≤ (m : ℝ) := by simp [isInt]
  have hki : isInt (k : ℝ) ∧ 0 ≤ (k : ℝ) := by simp [isInt]
  have hlt : ¬((m : ℝ) < (k : ℝ)) := by exact_mod_cast not_lt.mpr hk
  simp [jsCombinations, hm, hki, hlt]

/-- mathjs `combinations` throws when `k` exceeds `n`. -/
theorem jsCombinations_err (m k : ℕ) (hk : m < k) :
    jsCombinations (m : ℝ) (k : ℝ) =
      Except.error "k must be less than or equal to n" := by
  have hm : isInt (m : ℝ) ∧ 0 ≤ (m : ℝ) := by simp [isInt]
  have hki : isInt (k : ℝ) ∧ 0 ≤ (k : ℝ) := by simp [isInt]
  have hlt : (m : ℝ) < (k : ℝ) := by exact_mod_cast hk
  simp [jsCombinations, hm, hki, hlt]

/-- The binomial density at an integer sample `k ≤ n`, with the two
parameters supplied, evaluates to `C(n,k) * p^k * (1-p)^(n-k)`. -/
theorem binomialPdf_nat (m k : ℕ) (p : ℝ) (hk : k ≤ m) :
    binomialDist.pdf (k : ℝ) [(m : ℝ), p] =
      Except.ok (((m.choose k : ℕ) : ℝ) * p ^ k * (1 - p) ^ (m - k)) := by
  have hc := jsCombinations_nat m k hk
  have hsub : (m : ℝ) - (k : ℝ) = ((m - k : ℕ) : ℝ) := (Nat.cast_sub hk).symm
  simp only [binomialDist, List.getD_cons_zero, List.getD_cons_succ, hc, hsub,
    Real.rpow_natCast]

/-- The binomial density with default parameters (`n = 10`) succeeds at
integer samples `k ≤ 10`. -/
theorem binomialPdf_default_ok (k : ℕ) (hk : k ≤ 10) :
    ∃ v, binomialDist.pdf (k : ℝ) [] = Except.ok v := by
  have h10 : (10 : ℝ) = ((10 : ℕ) : ℝ) := by norm_num
  have hc := jsCombinations_nat 10 k hk
  refine ⟨((Nat.choose 10 k : ℕ) : ℝ) * (0.5 : ℝ) ^ ((k : ℕ) : ℝ) *
    (1 - (0.5 : ℝ)) ^ (((10 : ℕ) : ℝ) - (k : ℝ)), ?_⟩
  simp only [binomialDist, List.getD]
  simp only [List.get?_nil, Option.getD_none, h10, hc]

/-- The binomial density with default parameters throws at the sample
`x = 11`, because `combinations(10, 11)` rejects `k > n`. -/
theorem binomialPdf_default_err :
    binomialDist.pdf ((11 : ℕ) : ℝ) [] =
      Except.error "k must be less than or equal to n" := by
  have h10 : (10 : ℝ) = ((10 : ℕ) : ℝ) := by norm_num
  have hc := jsCombinations_err 10 11 (by norm_num)
  simp only [binomialDist, List.getD]
  simp only [List.get?_nil, Option.getD_none, h10, hc]

/-- Split `range n` at position `j`. -/
theorem range_split (j n : ℕ) (h : j ≤ n) :
    List.range n = List.range j ++ List.range' j (n - j) := by
  have happ := List.range'_append 0 j (n - j) 1
  simp only [Nat.zero_add, Nat.one_mul] at happ
  rw [List.range_eq_range' n, List.range_eq_range' j]
  conv_lhs => rw [show n = (n - j) + j from by omega]
  exact happ.symm

/-- Mapping a throwing callback over the real casts of `range n` succeeds
when the callback succeeds on every sample. -/
theorem mapExcept_map_range_ok {β : Type} (f : ℝ → Except String β) (g : ℕ → β)
    (n : ℕ) (h : ∀ k, k < n → f (k : ℝ) = Except.ok (g k)) :
    mapExcept f ((List.range n).map (Nat.cast : ℕ → ℝ)) =
      Except.ok ((List.range n).map g) := by
  have hall : ∀ a ∈ (List.range n).map (Nat.cast : ℕ → ℝ),
      f a = Except.ok ((fun x => g ⌊x⌋.toNat) a) := by
    intro a ha
    rw [List.mem_map] at ha
    obtain ⟨k, hk, rfl⟩ := ha
    rw [List.mem_range] at hk
    rw [h k hk]
    simp
  rw [mapExcept_ok_of_forall f (fun x => g ⌊x⌋.toNat) _ hall, List.map_map]
  congr 1
  apply List.map_congr_left
  intro k _
  simp

/-- Mapping a throwing callback over the real casts of `range n` throws the
callback's exception at the first failing sample. -/
theorem mapExcept_map_range_err {β : Type} (f : ℝ → Except String β) (e : String)
    (n j : ℕ) (hj : j < n) (hok : ∀ k, k < j → ∃ v, f (k : ℝ) = Except.ok v)
    (herr : f (j : ℝ) = Except.error e) :
    mapExcept f ((List.range n).map (Nat.cast : ℕ → ℝ)) = Except.error e := by
  rw [range_split j n (le_of_lt hj),
    show n - j = (n - j - 1) + 1 from by omega, List.range'_succ,
    List.map_append, List.map_cons]
  apply mapExcept_append_error
  · intro b hb
    simp only [List.mem_map, List.mem_range] at hb
    obtain ⟨k, hk, rfl⟩ := hb
    exact hok k hk
  · exact herr

/-- Decoding the discrete grid yields the twenty integer samples. -/
theorem gridToReal_disc :
    gridToReal discGrid = (List.range 20).map (Nat.cast : ℕ → ℝ) := by
  unfold gridToReal
  rw [discGrid_eq, List.map_map]
  apply List.map_congr_left
  intro k _
  simp only [Function.comp]
  push_cast
  rw [show (36028797018963968 : ℝ) = 2 ^ 55 from by norm_num, mul_div_assoc,
    div_self (by norm_num), mul_one]

/-- The handler's sampling range for `"poisson"` is the integers `0..19`. -/
theorem sampleXValues_poisson :
    sampleXValues "poisson" = (List.range 20).map (Nat.cast : ℕ → ℝ) := by
  rw [show sampleXValues "poisson" = gridToReal discGrid from by simp [sampleXValues]]
  exact gridToReal_disc

/-- The handler's sampling range for `"binomial"` is the integers `0..19`. -/
theorem sampleXValues_binomial :
    sampleXValues "binomial" = (List.range 20).map (Nat.cast : ℕ → ℝ) := by
  rw [show sampleXValues "binomial" = gridToReal discGrid from by simp [sampleXValues]]
  exact gridToReal_disc

/-- Every type other than `"poisson"` and `"binomial"` is sampled over the
decoded continuous grid (101 accumulated binary64 points). -/
theorem sampleXValues_continuous (t : String) (h1 : t ≠ "poisson")
    (h2 : t ≠ "binomial") : sampleXValues t = gridToReal contGrid := by
  simp [sampleXValues, h1, h2]

/-- Lookup of any name outside the seven registered ones fails. -/
theorem distributions_none (t : String)
    (h : t ∉ ["normal", "uniform", "exponential", "poisson", "rayleigh",
      "laplacian", "binomial"]) : distributions t = none := by
  simp only [List.mem_cons, List.not_mem_nil, or_false, not_or] at h
  obtain ⟨h1, h2, h3, h4, h5, h6, h7⟩ := h
  simp [distributions, h1, h2, h3, h4, h5, h6, h7]

/-- No `Object.prototype` member name is a registered kind. -/
theorem proto_not_registered (t : String) (h : t ∈ objectProtoProps) :
    t ∉ ["normal", "uniform", "exponential", "poisson", "rayleigh",
      "laplacian", "binomial"] := by
  simp only [objectProtoProps] at h
  fin_cases h <;> decide

/-- A registered kind resolves to its own-property descriptor. -/
theorem distributionsGetProp_descriptor (t : String) (d : DistEntry)
    (h : distributions t = some d) :
    distributionsGetProp t = JSProp.descriptor d := by
  simp [distributionsGetProp, h]

/-- An `Object.prototype` member name resolves to an inherited truthy
member, not to `undefined`. -/
theorem distributionsGetProp_proto (t : String) (h : t ∈ objectProtoProps) :
    distributionsGetProp t = JSProp.protoMember := by
  simp [distributionsGetProp, distributions_none t (proto_not_registered t h), h]

/-- Any name that is neither registered nor inherited reads as `undefined`. -/
theorem distributionsGetProp_undefined (t : String)
    (h1 : t ∉ ["normal", "uniform", "exponential", "poisson", "rayleigh",
      "laplacian", "binomial"])
    (h2 : t ∉ objectProtoProps) : distributionsGetProp t = JSProp.undefined := by
  simp [distributionsGetProp, distributions_none t h1, h2]

/-- When no query key is array-index-like, `Object.keys` enumeration is
the plain insertion order. -/
theorem jsObjectKeys_nonIndex (q : List (String × ℝ))
    (h : ∀ kv ∈ q, keyIndex kv.1 = none) : jsObjectKeys q = q := by
  unfold jsObjectKeys
  have h1 : q.filter (fun kv => (keyIndex kv.1).isSome) = [] := by
    rw [List.filter_eq_nil_iff]
    intro kv hkv
    simp [h kv hkv]
  have h2 : q.filter (fun kv => (keyIndex kv.1).isNone) = q := by
    rw [List.filter_eq_self]
    intro kv hkv
    simp [h kv hkv]
  rw [h1, h2]
  rfl

/-- Shape of a successful handler run: once the lookup succeeds and the
density map does not throw, the handler returns the assembled payload. -/
theorem distributionGet_ok (t : String) (dist : DistEntry)
    (q : List (String × ℝ)) (pdfL : List ℝ)
    (hlook : distributions t = some dist)
    (hmap : mapExcept (fun x => dist.pdf x ((jsObjectKeys q).map (fun kv => kv.2)))
      (sampleXValues t) = Except.ok pdfL) :
    distributionGet t q = HandlerResult.ok ⟨sampleXValues t, pdfL,
      computeCDF pdfL, computeStatistics dist ((jsObjectKeys q).map (fun kv => kv.2)),
      dist.pdfExpression, dist.cdfExpression⟩ := by
  simp [distributionGet, distributionsGetProp_descriptor t dist hlook, hmap]

/-- A registered descriptor whose density never throws yields a successful
response for every query. -/
theorem distributionGet_total (t : String) (dist : DistEntry)
    (q : List (String × ℝ)) (hlook : distributions t = some dist)
    (htot : ∀ x ps, ∃ v, dist.pdf x ps = Except.ok v) :
    ∃ r, distributionGet t q = HandlerResult.ok r := by
  obtain ⟨pdfL, hmap⟩ := mapExcept_exists_ok
    (fun x => dist.pdf x ((jsObjectKeys q).map (fun kv => kv.2))) (sampleXValues t)
    (fun a _ => htot a ((jsObjectKeys q).map (fun kv => kv.2)))
  exact ⟨_, distributionGet_ok t dist q pdfL hlook hmap⟩

/-- The binomial density map over the discrete samples, with an integer
parameter `n ≥ 19` supplied, evaluates pointwise to the closed formula. -/
theorem binomial_pdfValues (m : ℕ) (p : ℝ) (hm : 19 ≤ m)
    (q : List (String × ℝ))
    (hq : (jsObjectKeys q).map (fun kv => kv.2) = [(m : ℝ), p]) :
    mapExcept (fun x => binomialDist.pdf x ((jsObjectKeys q).map (fun kv => kv.2)))
      (sampleXValues "binomial") =
      Except.ok ((List.range 20).map
        (fun k => ((m.choose k : ℕ) : ℝ) * p ^ k * (1 - p) ^ (m - k))) := by
  rw [hq, sampleXValues_binomial]
  apply mapExcept_map_range_ok
  intro k hk
  exact binomialPdf_nat m k p (by omega)

/-- C5: for every pdfValues sequence, the derived cdfValues is exactly the
running cumulative sum of pdfValues in sample order with each cumulative
value then divided by the final (total) cumulative sum — normalization by
total mass only, with no multiplication by the sampling step width. -/
theorem claim_C5 (pdfValues : List ℝ) : computeCDF pdfValues = specCDF pdfValues :=
  computeCDF_spec pdfValues

/-- C3 counterexample: the kind string `"constructor"` lies outside the
seven registered kinds, yet the request is not rejected with 400: the
truthiness guard `!distributions[type]` sees the inherited
`Object.prototype.constructor`, which is truthy, so the handler proceeds
and throws a TypeError (HTTP 500) when it calls the undefined `.pdf`. -/
theorem claim_C3_counterexample :
    distributionGet "constructor" [] =
      HandlerResult.serverError "distributions[type].pdf is not a function" ∧
    "constructor" ∉ ["normal", "uniform", "exponential", "poisson", "rayleigh",
      "laplacian", "binomial"] := by
  constructor
  · have hp := distributionsGetProp_proto "constructor" (by decide)
    simp [distributionGet, hp]
  · decide

/-- C3 as amended: a kind string outside the seven registered kinds that is
also not an `Object.prototype` member name yields HTTP 400 with the JSON
body `error: Invalid distribution type` and no sample computation; an
`Object.prototype` member name (`constructor`, `toString`, `__proto__`, …)
slips past the truthiness guard and the handler instead throws a TypeError
that surfaces as a server error (HTTP 500). -/
theorem claim_C3_amended :
    (∀ t : String, t ∉ ["normal", "uniform", "exponential", "poisson", "rayleigh",
      "laplacian", "binomial"] → t ∉ objectProtoProps →
      ∀ q : List (String × ℝ),
        distributionGet t q =
          HandlerResult.badRequest 400 "Invalid distribution type") ∧
    (∀ t ∈ objectProtoProps, ∀ q : List (String × ℝ),
      distributionGet t q =
        HandlerResult.serverError "distributions[type].pdf is not a function") := by
  constructor
  · intro t h1 h2 q
    have hu := distributionsGetProp_undefined t h1 h2
    simp [distributionGet, hu]
  · intro t ht q
    have hp := distributionsGetProp_proto t ht
    simp [distributionGet, hp]

/-- C3 witness: the unregistered kind `"unknownthing"` is rejected with
400, while the prototype member name `"toString"` crashes the handler. -/
theorem claim_C3_witness :
    ("unknownthing" ∉ ["normal", "uniform", "exponential", "poisson", "rayleigh",
      "laplacian", "binomial"]) ∧
    ("unknownthing" ∉ objectProtoProps) ∧
    distributionGet "unknownthing" [] =
      HandlerResult.badRequest 400 "Invalid distribution type" ∧
    ("toString" ∈ objectProtoProps) ∧
    distributionGet "toString" [] =
      HandlerResult.serverError "distributions[type].pdf is not a function" :=
  ⟨by decide, by decide, claim_C3_amended.1 "unknownthing" (by decide) (by decide) [],
    by decide, claim_C3_amended.2 "toString" (by decide) []⟩

/-- C6 counterexample: a continuous-kind request does not sample 100
points — the mathjs stepping loop accumulates binary64 rounding drift, its
hundredth sum is still below the end bound `5`, and a 101st point is
pushed. -/
theorem claim_C6_counterexample :
    (sampleXValues "normal").length = 101 ∧ (101 : ℕ) ≠ 100 := by
  constructor
  · rw [sampleXValues_continuous "normal" (by decide) (by decide)]
    unfold gridToReal
    rw [List.length_map]
    exact contGrid_length
  · decide

/-- C6 as amended: the sampled xValues depend only on the kind — poisson
and binomial sample exactly the 20 integers `0..19` in step 1, and every
other kind samples exactly the 101 points produced by the IEEE
accumulation loop from `-5.0` in steps of the double nearest `0.1`: the
first point is exactly `-5` and the last is `180143985094819744 * 2^-55 ≈
4.999999999999997`, strictly between `4.9` and the exclusive bound `5` —
regardless of supplied parameters; every successful response carries
exactly that range as its `xValues`. -/
theorem claim_C6_amended :
    sampleXValues "poisson" = (List.range 20).map (Nat.cast : ℕ → ℝ) ∧
    sampleXValues "binomial" = (List.range 20).map (Nat.cast : ℕ → ℝ) ∧
    (∀ t : String, t ≠ "poisson" → t ≠ "binomial" →
      sampleXValues t = gridToReal contGrid) ∧
    (contGrid.length = 101 ∧
      contGrid[0]? = some (-180143985094819840) ∧
      contGrid.getLast? = some 180143985094819744 ∧
      (-180143985094819840 : ℝ) / 2 ^ 55 = -5 ∧
      (49 : ℝ) / 10 < (180143985094819744 : ℝ) / 2 ^ 55 ∧
      (180143985094819744 : ℝ) / 2 ^ 55 < 5) ∧
    (∀ (t : String) (q : List (String × ℝ)) (r : DistResponse),
      distributionGet t q = HandlerResult.ok r → r.xValues = sampleXValues t) := by
  refine ⟨sampleXValues_poisson, sampleXValues_binomial, sampleXValues_continuous,
    ⟨contGrid_length, contGrid_head, contGrid_last, by norm_num, by norm_num,
      by norm_num⟩, ?_⟩
  intro t q r h
  unfold distributionGet at h
  cases hp : distributionsGetProp t with
  | undefined => rw [hp] at h; cases h
  | protoMember => rw [hp] at h; cases h
  | descriptor dist =>
    rw [hp] at h
    simp only at h
    cases hm : mapExcept (fun x => dist.pdf x ((jsObjectKeys q).map (fun kv => kv.2)))
        (sampleXValues t) with
    | error e => rw [hm] at h; cases h
    | ok pdfL =>
      rw [hm] at h
      cases h
      rfl

/-- C6 witness: a successful default `normal` request carries the
101-point continuous range. -/
theorem claim_C6_witness :
    ∃ r, distributionGet "normal" [] = HandlerResult.ok r ∧
      r.xValues = gridToReal contGrid ∧ r.xValues.length = 101 := by
  obtain ⟨r, hr⟩ := distributionGet_total "normal" normalDist []
    distributions_normal (fun x ps => ⟨_, rfl⟩)
  have hx : r.xValues = sampleXValues "normal" :=
    claim_C6_amended.2.2.2.2 "normal" [] r hr
  have hc : sampleXValues "normal" = gridToReal contGrid :=
    claim_C6_amended.2.2.1 "normal" (by decide) (by decide)
  refine ⟨r, hr, hx.trans hc, ?_⟩
  rw [hx, hc]
  unfold gridToReal
  rw [List.length_map]
  exact contGrid_length

/-- C10: the poisson density is total — for every real `x` and every
parameter list it returns a value rather than raising, because the
`Number.isInteger(x) && x >= 0` guard makes it return `0` before the
factorial can see a bad input — unlike the binomial density, which applies
no guard and raises (already at the non-integer sample `x = 0.5` with
default parameters) inside mathjs `combinations`. -/
theorem claim_C10 :
    (∀ (x : ℝ) (ps : List ℝ), ∃ v, poissonDist.pdf x ps = Except.ok v) ∧
    (∀ (x : ℝ) (ps : List ℝ), ¬(isInt x ∧ 0 ≤ x) →
      poissonDist.pdf x ps = Except.ok 0) ∧
    binomialDist.pdf 0.5 [] =
      Except.error "Positive integer value expected in function combinations" := by
  refine ⟨poissonPdf_total, poissonPdf_guard, ?_⟩
  have hi10 : isInt (10 : ℝ) := by norm_num [isInt]
  have h05 : ¬ isInt ((1 : ℝ) / 2) := by norm_num [isInt]
  norm_num [binomialDist, jsCombinations, List.getD, hi10, h05]

/-- C10 witness: the guard case, at the negative sample `x = -1`. -/
theorem claim_C10_witness :
    ¬(isInt (-1 : ℝ) ∧ 0 ≤ (-1 : ℝ)) ∧ poissonDist.pdf (-1) [] = Except.ok 0 := by
  have h : ¬(isInt (-1 : ℝ) ∧ 0 ≤ (-1 : ℝ)) := by
    intro hc
    have h0 := hc.2
    norm_num at h0
  exact ⟨h, claim_C10.2.1 (-1) [] h⟩

/-- Reading a position below the truncation point is unaffected by `take`. -/
theorem getD_take (l : List ℝ) (n i : ℕ) (d : ℝ) (h : i < n) :
    (l.take n).getD i d = l.getD i d := by
  simp [List.getD, List.getElem?_take, h]

/-- C7 counterexample: `Object.keys` enumerates array-index-like keys
first in ascending numeric order, so for
`GET /distribution/normal?b=2&0=7` the positional parameter list is
`[7, 2]` — not the appearance-order values `[2, 7]` — and the response's
mean is `7`: key names are neither ignored nor taken in appearance
order. -/
theorem claim_C7_counterexample :
    (jsObjectKeys [(("b" : String), (2 : ℝ)), ("0", 7)]).map (fun kv => kv.2) =
      [7, 2] ∧
    [(("b" : String), (2 : ℝ)), ("0", 7)].map (fun kv => kv.2) = [2, 7] ∧
    ([(7 : ℝ), 2] : List ℝ) ≠ [2, 7] ∧
    ∃ r, distributionGet "normal" [("b", 2), ("0", 7)] = HandlerResult.ok r ∧
      r.stats.mean = 7 := by
  refine ⟨rfl, rfl, by norm_num, ?_⟩
  obtain ⟨pdfL, hmap⟩ := mapExcept_exists_ok
    (fun x => normalDist.pdf x
      ((jsObjectKeys [(("b" : String), (2 : ℝ)), ("0", 7)]).map (fun kv => kv.2)))
    (sampleXValues "normal") (fun a _ => ⟨_, rfl⟩)
  refine ⟨_, distributionGet_ok "normal" normalDist _ pdfL
    distributions_normal hmap, ?_⟩
  show (computeStatistics normalDist
    ((jsObjectKeys [(("b" : String), (2 : ℝ)), ("0", 7)]).map (fun kv => kv.2))).mean = 7
  rw [show (jsObjectKeys [(("b" : String), (2 : ℝ)), ("0", 7)]).map (fun kv => kv.2)
    = [(7 : ℝ), 2] from rfl]
  norm_num [computeStatistics, normalDist, List.getD]

/-- C7 as amended: the parameter list reaching the descriptor functions is
the query values parsed as floats, bound positionally in the `Object.keys`
enumeration order of the parsed query object — array-index-like keys first
in ascending numeric order, then the remaining keys in the order they
appear.  Only the enumeration order of the key names matters (two queries
whose enumerated values agree are indistinguishable), and for queries
without integer-like keys that order is plain appearance order; with no
query parameters each function's documented defaults apply; and parameters
beyond a function's arity are ignored (each function reads only its own
positional prefix).  Query values are modelled post-`parseFloat`, as
reals. -/
theorem claim_C7_amended :
    (∀ (t : String) (q1 q2 : List (String × ℝ)),
      (jsObjectKeys q1).map (fun kv => kv.2) =
        (jsObjectKeys q2).map (fun kv => kv.2) →
      distributionGet t q1 = distributionGet t q2) ∧
    (∀ q : List (String × ℝ), (∀ kv ∈ q, keyIndex kv.1 = none) →
      jsObjectKeys q = q) ∧
    (∀ x : ℝ,
      normalDist.pdf x [] = normalDist.pdf x [0, 1] ∧
      uniformDist.pdf x [] = uniformDist.pdf x [0, 1] ∧
      exponentialDist.pdf x [] = exponentialDist.pdf x [1] ∧
      poissonDist.pdf x [] = poissonDist.pdf x [3] ∧
      rayleighDist.pdf x [] = rayleighDist.pdf x [1] ∧
      laplacianDist.pdf x [] = laplacianDist.pdf x [0, 1] ∧
      binomialDist.pdf x [] = binomialDist.pdf x [10, 0.5]) ∧
    (normalDist.mean [] = 0 ∧ normalDist.variance [] = 1 ∧
      uniformDist.mean [] = (0 + 1) / 2 ∧ uniformDist.variance [] = (1 - 0) ^ 2 / 12 ∧
      exponentialDist.mean [] = 1 / 1 ∧ exponentialDist.variance [] = 1 / 1 ^ 2 ∧
      poissonDist.mean [] = 3 ∧ poissonDist.variance [] = 3 ∧
      rayleighDist.mean [] = 1 * Real.sqrt (Real.pi / 2) ∧
      rayleighDist.variance [] = (2 - Real.pi / 2) * 1 ^ 2 ∧
      laplacianDist.mean [] = 0 ∧ laplacianDist.variance [] = 2 * 1 ^ 2 ∧
      binomialDist.mean [] = 10 * 0.5 ∧
      binomialDist.variance [] = 10 * 0.5 * (1 - 0.5)) ∧
    (∀ (x : ℝ) (ps : List ℝ),
      normalDist.pdf x ps = normalDist.pdf x (ps.take 2) ∧
      uniformDist.pdf x ps = uniformDist.pdf x (ps.take 2) ∧
      exponentialDist.pdf x ps = exponentialDist.pdf x (ps.take 1) ∧
      poissonDist.pdf x ps = poissonDist.pdf x (ps.take 1) ∧
      rayleighDist.pdf x ps = rayleighDist.pdf x (ps.take 1) ∧
      laplacianDist.pdf x ps = laplacianDist.pdf x (ps.take 2) ∧
      binomialDist.pdf x ps = binomialDist.pdf x (ps.take 2)) ∧
    (∀ ps : List ℝ,
      normalDist.mean ps = normalDist.mean (ps.take 1) ∧
      normalDist.variance ps = normalDist.variance (ps.take 1) ∧
      uniformDist.mean ps = uniformDist.mean (ps.take 2) ∧
      uniformDist.variance ps = uniformDist.variance (ps.take 2) ∧
      exponentialDist.mean ps = exponentialDist.mean (ps.take 1) ∧
      exponentialDist.variance ps = exponentialDist.variance (ps.take 1) ∧
      poissonDist.mean ps = poissonDist.mean (ps.take 1) ∧
      poissonDist.variance ps = poissonDist.variance (ps.take 1) ∧
      rayleighDist.mean ps = rayleighDist.mean (ps.take 1) ∧
      rayleighDist.variance ps = rayleighDist.variance (ps.take 1) ∧
      laplacianDist.mean ps = laplacianDist.mean (ps.take 1) ∧
      laplacianDist.variance ps = laplacianDist.variance (ps.take 1) ∧
      binomialDist.mean ps = binomialDist.mean (ps.take 2) ∧
      binomialDist.variance ps = binomialDist.variance (ps.take 2)) := by
  refine ⟨?_, jsObjectKeys_nonIndex, ?_, ?_, ?_, ?_⟩
  · intro t q1 q2 hq
    simp only [distributionGet, hq]
  · intro x
    refine ⟨?_, ?_, ?_, ?_, ?_, ?_, ?_⟩ <;> simp [normalDist, uniformDist,
      exponentialDist, poissonDist, rayleighDist, laplacianDist, binomialDist,
      List.getD]
  · refine ⟨?_, ?_, ?_, ?_, ?_, ?_, ?_, ?_, ?_, ?_, ?_, ?_, ?_, ?_⟩ <;>
      simp [normalDist, uniformDist, exponentialDist, poissonDist,
        rayleighDist, laplacianDist, binomialDist, List.getD]
  · intro x ps
    refine ⟨?_, ?_, ?_, ?_, ?_, ?_, ?_⟩
    · simp only [normalDist]
      rw [getD_take ps 2 0 0 (by norm_num), getD_take ps 2 1 1 (by norm_num)]
    · simp only [uniformDist]
      rw [getD_take ps 2 0 0 (by norm_num), getD_take ps 2 1 1 (by norm_num)]
    · simp only [exponentialDist]
      rw [getD_take ps 1 0 1 (by norm_num)]
    · simp only [poissonDist]
      rw [getD_take ps 1 0 3 (by norm_num)]
    · simp only [rayleighDist]
      rw [getD_take ps 1 0 1 (by norm_num)]
    · simp only [laplacianDist]
      rw [getD_take ps 2 0 0 (by norm_num), getD_take ps 2 1 1 (by norm_num)]
    · simp only [binomialDist]
      rw [getD_take ps 2 0 10 (by norm_num), getD_take ps 2 1 0.5 (by norm_num)]
  · intro ps
    refine ⟨?_, ?_, ?_, ?_, ?_, ?_, ?_, ?_, ?_, ?_, ?_, ?_, ?_, ?_⟩
    · simp only [normalDist]
      rw [getD_take ps 1 0 0 (by norm_num)]
    · simp only [normalDist]
      rw [getD_take ps 1 0 1 (by norm_num)]
    · simp only [uniformDist]
      rw [getD_take ps 2 0 0 (by norm_num), getD_take ps 2 1 1 (by norm_num)]
    · simp only [uniformDist]
      rw [getD_take ps 2 0 0 (by norm_num), getD_take ps 2 1 1 (by norm_num)]
    · simp only [exponentialDist]
      rw [getD_take ps 1 0 1 (by norm_num)]
    · simp only [exponentialDist]
      rw [getD_take ps 1 0 1 (by norm_num)]
    · simp only [poissonDist]
      rw [getD_take ps 1 0 3 (by norm_num)]
    · simp only [poissonDist]
      rw [getD_take ps 1 0 3 (by norm_num)]
    · simp only [rayleighDist]
      rw [getD_take ps 1 0 1 (by norm_num)]
    · simp only [rayleighDist]
      rw [getD_take ps 1 0 1 (by norm_num)]
    · simp only [laplacianDist]
      rw [getD_take ps 1 0 0 (by norm_num)]
    · simp only [laplacianDist]
      rw [getD_take ps 1 0 1 (by norm_num)]
    · simp only [binomialDist]
      rw [getD_take ps 2 0 10 (by norm_num), getD_take ps 2 1 0.5 (by norm_num)]
    · simp only [binomialDist]
      rw [getD_take ps 2 0 10 (by norm_num), getD_take ps 2 1 0.5 (by norm_num)]

/-- C7 witness: two queries with different non-numeric key names but the
same values in the same order produce identical responses, and a
no-integer-key query keeps its appearance order. -/
theorem claim_C7_witness :
    ((jsObjectKeys [(("mu" : String), (5 : ℝ))]).map (fun kv => kv.2) =
      (jsObjectKeys [(("anything" : String), (5 : ℝ))]).map (fun kv => kv.2)) ∧
    distributionGet "normal" [("mu", 5)] =
      distributionGet "normal" [("anything", 5)] ∧
    (∀ kv ∈ [(("mu" : String), (5 : ℝ))], keyIndex kv.1 = none) ∧
    jsObjectKeys [(("mu" : String), (5 : ℝ))] = [("mu", 5)] := by
  have hmem : ∀ kv ∈ [(("mu" : String), (5 : ℝ))], keyIndex kv.1 = none := by
    intro kv hkv
    simp only [List.mem_singleton] at hkv
    subst hkv
    rfl
  exact ⟨rfl, claim_C7_amended.1 "normal" [("mu", 5)] [("anything", 5)] rfl, hmem,
    claim_C7_amended.2.1 [(("mu" : String), (5 : ℝ))] hmem⟩

/-- C2: evaluation of the code at the failing input.  `computeStatistics`
spreads the same positional parameter list into `mean` and `variance`, but
normal's `variance` declares `sigma` as its FIRST parameter while the
canonical parameter order is `(mu, sigma)`: for `params = [3, 2]`
(`μ = 3, σ = 2`) the code returns variance `3² = 9` and stdDev `3`, where
the standard closed form is `σ² = 4`.  Laplacian's variance misbinds the
same way (`2·μ²` instead of `2·b²`). -/
theorem claim_C2_bug :
    (computeStatistics normalDist [3, 2]).mean = 3 ∧
    (computeStatistics normalDist [3, 2]).variance = 9 ∧
    (computeStatistics normalDist [3, 2]).stdDev = JSNum.fin 3 ∧
    (computeStatistics laplacianDist [3, 2]).variance = 18 ∧
    ((2 : ℝ) ^ 2 = 4 ∧ (9 : ℝ) ≠ 4 ∧ 2 * (2 : ℝ) ^ 2 = 8 ∧ (18 : ℝ) ≠ 8) := by
  refine ⟨?_, ?_, ?_, ?_, by norm_num, by norm_num, by norm_num, by norm_num⟩
  · norm_num [computeStatistics, normalDist, List.getD]
  · norm_num [computeStatistics, normalDist, List.getD]
  · have h : jsSqrt (9 : ℝ) = JSNum.fin 3 := by
      rw [jsSqrt, if_neg (by norm_num), show (9 : ℝ) = 3 ^ 2 from by norm_num,
        Real.sqrt_sq (by norm_num : (0:ℝ) ≤ 3)]
    norm_num [computeStatistics, normalDist, List.getD, h]
  · norm_num [computeStatistics, laplacianDist, List.getD]

/-- C9 counterexample: for `poisson` with parameter list `[-1]`
(`GET /distribution/poisson?lambda=-1`) the returned statistics have
`variance = -1 < 0` and `stdDev = sqrt(-1) = NaN`, refuting
`variance >= 0`, `stdDev >= 0` and a real-valued `sqrt` relation. -/
theorem claim_C9_counterexample :
    (computeStatistics poissonDist [-1]).variance = -1 ∧
    ¬(0 ≤ (computeStatistics poissonDist [-1]).variance) ∧
    (computeStatistics poissonDist [-1]).stdDev = JSNum.nan := by
  refine ⟨?_, ?_, ?_⟩
  · norm_num [computeStatistics, poissonDist, List.getD]
  · norm_num [computeStatistics, poissonDist, List.getD]
  · norm_num [computeStatistics, poissonDist, List.getD, jsSqrt]

/-- C9 as amended: `stdDev` is the JavaScript square root of `variance`,
so whenever `variance ≥ 0` the returned statistics satisfy
`stdDev = sqrt(variance) ≥ 0`; `variance ≥ 0` holds unconditionally for
normal, uniform, exponential, rayleigh and laplacian, but for poisson
(`variance = λ`) and binomial (`variance = np(1-p)`) only when the
parameters keep the closed-form variance non-negative. -/
theorem claim_C9_amended :
    (∀ ps : List ℝ, 0 ≤ (computeStatistics normalDist ps).variance) ∧
    (∀ ps : List ℝ, 0 ≤ (computeStatistics uniformDist ps).variance) ∧
    (∀ ps : List ℝ, 0 ≤ (computeStatistics exponentialDist ps).variance) ∧
    (∀ ps : List ℝ, 0 ≤ (computeStatistics rayleighDist ps).variance) ∧
    (∀ ps : List ℝ, 0 ≤ (computeStatistics laplacianDist ps).variance) ∧
    (∀ (dist : DistEntry) (ps : List ℝ),
      0 ≤ (computeStatistics dist ps).variance →
      (computeStatistics dist ps).stdDev =
        JSNum.fin (Real.sqrt ((computeStatistics dist ps).variance)) ∧
      0 ≤ Real.sqrt ((computeStatistics dist ps).variance)) := by
  refine ⟨?_, ?_, ?_, ?_, ?_, ?_⟩
  · intro ps
    simp only [computeStatistics, normalDist]
    positivity
  · intro ps
    simp only [computeStatistics, uniformDist]
    positivity
  · intro ps
    simp only [computeStatistics, exponentialDist]
    positivity
  · intro ps
    simp only [computeStatistics, rayleighDist]
    have hpi : Real.pi ≤ 4 := Real.pi_le_four
    have h2 : (0 : ℝ) ≤ 2 - Real.pi / 2 := by linarith
    exact mul_nonneg h2 (sq_nonneg _)
  · intro ps
    simp only [computeStatistics, laplacianDist]
    positivity
  · intro dist ps h
    refine ⟨?_, Real.sqrt_nonneg _⟩
    simp only [computeStatistics, jsSqrt, not_lt.mpr h] at h ⊢
    rw [if_neg (not_lt.mpr h)]

/-- C9 witness: for `poisson` with `λ = 2` the variance is non-negative and
the amended square-root relation applies. -/
theorem claim_C9_witness :
    0 ≤ (computeStatistics poissonDist [2]).variance ∧
    (computeStatistics poissonDist [2]).stdDev =
      JSNum.fin (Real.sqrt ((computeStatistics poissonDist [2]).variance)) := by
  have h : 0 ≤ (computeStatistics poissonDist [2]).variance := by
    norm_num [computeStatistics, poissonDist, List.getD]
  exact ⟨h, (claim_C9_amended.2.2.2.2.2 poissonDist [2] h).1⟩

/-- C1 counterexample: the engine's failure modes are NOT limited to
`NotFound` — `GET /distribution/binomial` with no parameters (defaults
`n = 10, p = 0.5`) raises inside mathjs `combinations(10, 11)` at the
sampled point `x = 11`, surfacing as a server error instead of a
response. -/
theorem claim_C1_counterexample :
    distributionGet "binomial" [] =
      HandlerResult.serverError "k must be less than or equal to n" := by
  have herr : mapExcept (fun x => binomialDist.pdf x ([] : List ℝ))
      (sampleXValues "binomial") =
      Except.error "k must be less than or equal to n" := by
    rw [sampleXValues_binomial]
    apply mapExcept_map_range_err _ _ 20 11 (by norm_num)
    · intro k hk
      exact binomialPdf_default_ok k (by omega)
    · exact binomialPdf_default_err
  have hd := distributionsGetProp_descriptor "binomial" binomialDist
    distributions_binomial
  have hkeys : (jsObjectKeys ([] : List (String × ℝ))).map (fun kv => kv.2) =
      ([] : List ℝ) := rfl
  simp [distributionGet, hd, hkeys, herr]

/-- C1 as amended: for the six registered kinds other than binomial,
evaluation runs to completion for every parameter list and returns a
result, numeric edge cases being surfaced as ordinary values; the binomial
density, however, calls the throwing mathjs `combinations` and can raise
(it does at the default-sampled `x = 11` with the default `n = 10`), so a
server error is a second failure mode beyond `NotFound`. -/
theorem claim_C1_amended :
    (∀ t ∈ (["normal", "uniform", "exponential", "poisson", "rayleigh",
      "laplacian"] : List String), ∀ q : List (String × ℝ),
      ∃ r, distributionGet t q = HandlerResult.ok r) ∧
    (∃ e, binomialDist.pdf ((11 : ℕ) : ℝ) [] = Except.error e) := by
  constructor
  · intro t ht q
    simp only [List.mem_cons, List.not_mem_nil, or_false] at ht
    rcases ht with rfl | rfl | rfl | rfl | rfl | rfl
    · exact distributionGet_total _ _ q distributions_normal (fun x ps => ⟨_, rfl⟩)
    · exact distributionGet_total _ _ q distributions_uniform (fun x ps => ⟨_, rfl⟩)
    · exact distributionGet_total _ _ q distributions_exponential (fun x ps => ⟨_, rfl⟩)
    · exact distributionGet_total _ _ q distributions_poisson poissonPdf_total
    · exact distributionGet_total _ _ q distributions_rayleigh (fun x ps => ⟨_, rfl⟩)
    · exact distributionGet_total _ _ q distributions_laplacian (fun x ps => ⟨_, rfl⟩)
  · exact ⟨_, binomialPdf_default_err⟩

/-- C1 witness: a `poisson` request with the out-of-domain parameter
`λ = -1` still completes with a 200 response. -/
theorem claim_C1_witness :
    ("poisson" ∈ (["normal", "uniform", "exponential", "poisson", "rayleigh",
      "laplacian"] : List String)) ∧
    ∃ r, distributionGet "poisson" [("lambda", -1)] = HandlerResult.ok r :=
  ⟨by decide, claim_C1_amended.1 "poisson" (by decide) [("lambda", -1)]⟩

/-- Bridge between a mapped `List.range` sum and the `Finset.range` sum. -/
theorem list_sum_range (f : ℕ → ℝ) (n : ℕ) :
    ((List.range n).map f).sum = ∑ i ∈ Finset.range n, f i := by
  induction n with
  | zero => simp
  | succ m ih =>
    rw [Finset.sum_range_succ, List.range_succ, List.map_append,
      List.sum_append, ih]
    simp

/-- Total mass of the binomial density over the fixed samples `0..19` with
an integer `n = 20`: by the binomial theorem it is `1 - p^20` (the full
expansion minus the missing `k = 20` term). -/
theorem binomList_sum (p : ℝ) :
    ((List.range 20).map
      (fun k => ((Nat.choose 20 k : ℕ) : ℝ) * p ^ k * (1 - p) ^ (20 - k))).sum =
      1 - p ^ 20 := by
  rw [list_sum_range]
  have key : ∑ m ∈ Finset.range 21, p ^ m * (1 - p) ^ (20 - m) *
      ((Nat.choose 20 m : ℕ) : ℝ) = 1 := by
    rw [← add_pow]
    norm_num
  have hswap : ∑ i ∈ Finset.range 20, ((Nat.choose 20 i : ℕ) : ℝ) * p ^ i *
      (1 - p) ^ (20 - i) =
      ∑ i ∈ Finset.range 20, p ^ i * (1 - p) ^ (20 - i) *
        ((Nat.choose 20 i : ℕ) : ℝ) := by
    apply Finset.sum_congr rfl
    intro i _
    ring
  rw [hswap]
  have hsplit := Finset.sum_range_succ
    (fun m => p ^ m * (1 - p) ^ (20 - m) * ((Nat.choose 20 m : ℕ) : ℝ)) 20
  rw [key] at hsplit
  have hlast : p ^ 20 * (1 - p) ^ (20 - 20) * ((Nat.choose 20 20 : ℕ) : ℝ) =
      p ^ 20 := by
    simp [Nat.choose_self]
  rw [hlast] at hsplit
  linarith

/-- First sampled binomial density value: `(1-p)^20`. -/
theorem binomList_take_one (p : ℝ) :
    (((List.range 20).map
      (fun k => ((Nat.choose 20 k : ℕ) : ℝ) * p ^ k * (1 - p) ^ (20 - k))).take 1).sum =
      (1 - p) ^ 20 := by
  rw [← List.map_take, show (List.range 20).take 1 = [0] from rfl]
  simp

/-- Sum of the first two sampled binomial density values. -/
theorem binomList_take_two (p : ℝ) :
    (((List.range 20).map
      (fun k => ((Nat.choose 20 k : ℕ) : ℝ) * p ^ k * (1 - p) ^ (20 - k))).take 2).sum =
      (1 - p) ^ 20 + 20 * p * (1 - p) ^ 19 := by
  rw [← List.map_take, show (List.range 20).take 2 = [0, 1] from rfl]
  simp [Nat.choose_one_right]

/-- Division by a nonzero total stays finite. -/
theorem jsDiv_ne (a b : ℝ) (hb : b ≠ 0) : jsDiv a b = JSNum.fin (a / b) := by
  rw [jsDiv, if_neg hb]

/-- Adjacent running sums of a non-negative list are non-decreasing. -/
theorem take_sum_mono (l : List ℝ) (h : ∀ v ∈ l, 0 ≤ v) (i : ℕ) :
    (l.take (i + 1)).sum ≤ (l.take (i + 2)).sum := by
  conv_rhs => rw [show i + 2 = (i + 1) + 1 from rfl, List.take_succ]
  rw [List.sum_append]
  have hx : 0 ≤ (l[i + 1]?.toList).sum := by
    cases hv : l[i + 1]? with
    | none => simp
    | some v =>
      obtain ⟨hlt, rfl⟩ := List.getElem?_eq_some.mp hv
      simpa using h _ (List.getElem_mem hlt)
  linarith

/-- The last element of `range n` for positive `n`. -/
theorem range_getLast (n : ℕ) (h : 0 < n) :
    (List.range n).getLast? = some (n - 1) := by
  cases n with
  | zero => omega
  | succ m =>
    rw [List.range_succ, List.getLast?_concat]
    simp

/-- C8 counterexample: for kind `binomial` with parameter list `[20, -1]`
(`GET /distribution/binomial?n=20&p=-1`) the sampled densities sum to
exactly 0 (binomial theorem: `1 - (-1)^20`), yet the first cdfValue is the
`+Infinity` result of `1048576 / 0`, not NaN — a nonzero cumulative prefix
over a zero total divides to a signed infinity. -/
theorem claim_C8_counterexample :
    ∃ r, distributionGet "binomial" [("n", 20), ("p", -1)] = HandlerResult.ok r ∧
      r.pdfValues.sum = 0 ∧
      r.cdfValues[0]? = some JSNum.posInf ∧
      JSNum.posInf ≠ JSNum.nan := by
  have hq : (jsObjectKeys [(("n" : String), (20 : ℝ)), (("p" : String), (-1 : ℝ))]).map
      (fun kv => kv.2) = [((20 : ℕ) : ℝ), (-1 : ℝ)] := by
    rw [show jsObjectKeys [(("n" : String), (20 : ℝ)), (("p" : String), (-1 : ℝ))] =
      [(("n" : String), (20 : ℝ)), (("p" : String), (-1 : ℝ))] from rfl]
    norm_num
  have hmap := binomial_pdfValues 20 (-1) (by norm_num) _ hq
  have hok := distributionGet_ok "binomial" binomialDist _ _
    distributions_binomial hmap
  have hsum : ((List.range 20).map
      (fun k => ((Nat.choose 20 k : ℕ) : ℝ) * (-1) ^ k * (1 - (-1)) ^ (20 - k))).sum
      = 0 := by
    rw [binomList_sum]
    norm_num
  have hlen : ((List.range 20).map
      (fun k => ((Nat.choose 20 k : ℕ) : ℝ) * (-1) ^ k * (1 - (-1)) ^ (20 - k))).length
      = 20 := by
    simp
  have hget := computeCDF_getElem ((List.range 20).map
    (fun k => ((Nat.choose 20 k : ℕ) : ℝ) * (-1) ^ k * (1 - (-1)) ^ (20 - k))) 0
    (by rw [hlen]; norm_num)
  rw [hsum, binomList_take_one] at hget
  have hdiv : jsDiv ((1 - (-1 : ℝ)) ^ 20) 0 = JSNum.posInf := by
    rw [jsDiv, if_pos rfl, if_neg (by norm_num), if_pos (by norm_num)]
  rw [hdiv] at hget
  refine ⟨_, hok, hsum, hget, fun h => JSNum.noConfusion h⟩

/-- C8 as amended: when the sampled densities sum to exactly 0, each
cdfValue is its cumulative prefix divided by zero in JavaScript semantics:
NaN (0/0) wherever the running cumulative sum is 0 — in particular at
every position when all densities are 0 — `+Infinity` where the cumulative
sum is positive and `-Infinity` where it is negative, all propagated as-is
with no special-casing. -/
theorem claim_C8_amended (l : List ℝ) (htot : l.sum = 0) (i : ℕ)
    (hi : i < l.length) :
    ((l.take (i + 1)).sum = 0 → (computeCDF l)[i]? = some JSNum.nan) ∧
    (0 < (l.take (i + 1)).sum → (computeCDF l)[i]? = some JSNum.posInf) ∧
    ((l.take (i + 1)).sum < 0 → (computeCDF l)[i]? = some JSNum.negInf) := by
  have hget := computeCDF_getElem l i hi
  rw [htot] at hget
  refine ⟨?_, ?_, ?_⟩
  · intro h
    rw [hget, h, jsDiv, if_pos rfl, if_pos rfl]
  · intro h
    rw [hget, jsDiv, if_pos rfl, if_neg h.ne', if_pos h]
  · intro h
    rw [hget, jsDiv, if_pos rfl, if_neg h.ne, if_neg (not_lt.mpr h.le)]

/-- C8 witness: an all-zero density list yields NaN cdfValues. -/
theorem claim_C8_witness :
    List.sum [(0 : ℝ), 0] = 0 ∧ (0 : ℕ) < 2 ∧
    (List.take 1 [(0 : ℝ), 0]).sum = 0 ∧
    (computeCDF [(0 : ℝ), 0])[0]? = some JSNum.nan := by
  refine ⟨by norm_num, by norm_num, by norm_num, ?_⟩
  exact (claim_C8_amended [(0 : ℝ), 0] (by norm_num) 0 (by norm_num)).1 (by norm_num)

/-- C4 counterexample: for kind `binomial` with parameter list
`[20, -0.5]` (`GET /distribution/binomial?n=20&p=-0.5`) the sampled
densities have strictly positive total sum `1 - 2⁻²⁰`, yet the cdfValues
are not monotonically non-decreasing: the second value is negative while
the first is positive. -/
theorem claim_C4_counterexample :
    ∃ r, distributionGet "binomial" [("n", 20), ("p", -0.5)] = HandlerResult.ok r ∧
      0 < r.pdfValues.sum ∧
      ∃ a b : ℝ, r.cdfValues[0]? = some (JSNum.fin a) ∧
        r.cdfValues[1]? = some (JSNum.fin b) ∧ b < a := by
  have hq : (jsObjectKeys [(("n" : String), (20 : ℝ)), (("p" : String), (-0.5 : ℝ))]).map
      (fun kv => kv.2) = [((20 : ℕ) : ℝ), (-0.5 : ℝ)] := by
    rw [show jsObjectKeys [(("n" : String), (20 : ℝ)), (("p" : String), (-0.5 : ℝ))] =
      [(("n" : String), (20 : ℝ)), (("p" : String), (-0.5 : ℝ))] from rfl]
    norm_num
  have hmap := binomial_pdfValues 20 (-0.5) (by norm_num) _ hq
  have hok := distributionGet_ok "binomial" binomialDist _ _
    distributions_binomial hmap
  have hsum : ((List.range 20).map
      (fun k => ((Nat.choose 20 k : ℕ) : ℝ) * (-0.5) ^ k * (1 - (-0.5)) ^ (20 - k))).sum
      = 1 - (-0.5 : ℝ) ^ 20 := binomList_sum (-0.5)
  have hpos : (0 : ℝ) < 1 - (-0.5 : ℝ) ^ 20 := by norm_num
  have hlen : ((List.range 20).map
      (fun k => ((Nat.choose 20 k : ℕ) : ℝ) * (-0.5) ^ k * (1 - (-0.5)) ^ (20 - k))).length
      = 20 := by
    simp
  have hget0 := computeCDF_getElem ((List.range 20).map
    (fun k => ((Nat.choose 20 k : ℕ) : ℝ) * (-0.5) ^ k * (1 - (-0.5)) ^ (20 - k))) 0
    (by rw [hlen]; norm_num)
  have hget1 := computeCDF_getElem ((List.range 20).map
    (fun k => ((Nat.choose 20 k : ℕ) : ℝ) * (-0.5) ^ k * (1 - (-0.5)) ^ (20 - k))) 1
    (by rw [hlen]; norm_num)
  rw [hsum, binomList_take_one, jsDiv_ne _ _ hpos.ne'] at hget0
  rw [hsum, binomList_take_two, jsDiv_ne _ _ hpos.ne'] at hget1
  refine ⟨_, hok, ?_, _, _, hget0, hget1, ?_⟩
  · show (0 : ℝ) < ((List.range 20).map
      (fun k => ((Nat.choose 20 k : ℕ) : ℝ) * (-0.5) ^ k * (1 - (-0.5)) ^ (20 - k))).sum
    rw [hsum]
    norm_num
  · rw [div_lt_div_iff_of_pos_right hpos]
    norm_num

/-- C4 as amended: when the sampled densities are all non-negative (as they
are for in-domain parameters) and their total sum is strictly positive,
the cdfValues are finite, monotonically non-decreasing, and end exactly at
1; with mixed-sign densities monotonicity can fail.  Lengths always agree:
cdfValues is as long as pdfValues, which is as long as xValues. -/
theorem claim_C4_amended :
    (∀ l : List ℝ, (∀ v ∈ l, 0 ≤ v) → 0 < l.sum →
      ∃ rs : List ℝ, computeCDF l = rs.map JSNum.fin ∧
        List.Chain' (fun a b => a ≤ b) rs ∧
        rs.getLast? = some 1 ∧ rs.length = l.length) ∧
    (∀ (t : String) (q : List (String × ℝ)) (r : DistResponse),
      distributionGet t q = HandlerResult.ok r →
      r.pdfValues.length = r.xValues.length ∧
      r.cdfValues.length = r.pdfValues.length) := by
  constructor
  · intro l hnn hpos
    refine ⟨(List.range l.length).map (fun i => (l.take (i + 1)).sum / l.sum),
      ?_, ?_, ?_, by simp⟩
    · rw [computeCDF_spec]
      unfold specCDF
      rw [List.map_map]
      apply List.map_congr_left
      intro i _
      simp only [Function.comp]
      rw [jsDiv_ne _ _ hpos.ne']
    · rw [List.chain'_map]
      cases hl : l with
      | nil => rw [hl] at hpos; simp at hpos
      | cons a l' =>
        rw [← hl]
        have hlen : l.length = l'.length + 1 := by rw [hl]; rfl
        rw [hlen, List.chain'_range_succ]
        intro m hm
        rw [div_le_div_iff_of_pos_right hpos]
        exact take_sum_mono l hnn m
    · have hlpos : 0 < l.length := by
        cases l with
        | nil => simp at hpos
        | cons a l' => simp
      rw [List.getLast?_map, range_getLast l.length hlpos]
      show some ((l.take (l.length - 1 + 1)).sum / l.sum) = some 1
      rw [show l.length - 1 + 1 = l.length from by omega, List.take_length,
        div_self hpos.ne']
  · intro t q r h
    unfold distributionGet at h
    cases hp : distributionsGetProp t with
    | undefined => rw [hp] at h; cases h
    | protoMember => rw [hp] at h; cases h
    | descriptor dist =>
      rw [hp] at h
      simp only at h
      cases hm : mapExcept (fun x => dist.pdf x ((jsObjectKeys q).map (fun kv => kv.2)))
          (sampleXValues t) with
      | error e => rw [hm] at h; cases h
      | ok pdfL =>
        rw [hm] at h
        cases h
        exact ⟨mapExcept_length _ _ _ hm, computeCDF_length pdfL⟩

/-- C4 witness: the non-negative density list `[1, 1]` has cdf `[0.5, 1]`,
monotone with final element 1; and a successful default `normal` request
has matching lengths. -/
theorem claim_C4_witness :
    ((∀ v ∈ [(1 : ℝ), 1], 0 ≤ v) ∧ 0 < List.sum [(1 : ℝ), 1] ∧
      ∃ rs : List ℝ, computeCDF [(1 : ℝ), 1] = rs.map JSNum.fin ∧
        List.Chain' (fun a b => a ≤ b) rs ∧
        rs.getLast? = some 1 ∧ rs.length = 2) ∧
    (∃ r, distributionGet "normal" [] = HandlerResult.ok r ∧
      r.pdfValues.length = r.xValues.length ∧
      r.cdfValues.length = r.pdfValues.length) := by
  constructor
  · have h1 : ∀ v ∈ [(1 : ℝ), 1], 0 ≤ v := by norm_num
    have h2 : (0 : ℝ) < List.sum [(1 : ℝ), 1] := by norm_num
    obtain ⟨rs, ha, hb, hc, hd⟩ := claim_C4_amended.1 [(1 : ℝ), 1] h1 h2
    exact ⟨h1, h2, rs, ha, hb, hc, by simpa using hd⟩
  · obtain ⟨r, hr⟩ := distributionGet_total "normal" normalDist []
      distributions_normal (fun x ps => ⟨_, rfl⟩)
    exact ⟨r, hr, claim_C4_amended.2 "normal" [] r hr⟩
